import Mathlib

/-!
Verification of the voice-assistant conversational pipeline.

This file shallowly embeds the session-scoped pipeline of `app/main.py`
(`agent_chat`, `clear_session`), the Murf text-to-speech wrapper of
`app/services/tts_service.py` (`generate_speech`, `generate_fallback_audio`),
and the fallback catalog of `app/config/settings.py` (`FallbackResponses`).

The three remote services (AssemblyAI speech-to-text, Gemini text generation,
the Murf HTTP endpoint) are modelled as per-request oracles: the speech-to-text
and language-model adapter results are given as the structured values the
service layer hands to `agent_chat`, while the Murf HTTP outcome is given
raw so that `generate_speech`'s own result construction is part of the model.
The in-memory `chat_history` dict is modelled as an insertion-ordered
association list with Python-dict semantics.
-/

namespace VoiceAgent

/-- `MessageRole` from `api_schemas.py`: roles of conversation messages. -/
inductive MessageRole where
  | user
  | assistant
deriving DecidableEq, Repr

/-- `ConversationMessage` from `api_schemas.py`. -/
structure ConversationMessage where
  role : MessageRole
  content : String
deriving DecidableEq, Repr

/-- `TranscriptionResponse` from `api_schemas.py`, as produced by
`STTService.transcribe_audio` (the fields `agent_chat` reads). -/
structure TranscriptionResponse where
  transcription : String
  success : Bool
deriving DecidableEq, Repr

/-- `LLMResponse` from `api_schemas.py`, as produced by
`LLMService.generate_response` (the fields `agent_chat` reads). -/
structure LLMResponse where
  response : String
  success : Bool
deriving DecidableEq, Repr

/-- `TTSResponse` from `api_schemas.py`. -/
structure TTSResponse where
  audio_url : String
  success : Bool
  error_message : Option String
deriving DecidableEq, Repr

/-- `VoiceQueryResponse` from `api_schemas.py`, the pipeline result envelope
returned by `agent_chat` (the spec's PipelineResult). -/
structure VoiceQueryResponse where
  session_id : String
  audio_url : String
  transcription : String
  llm_response : String
  history_length : Nat
  error : Option String
  success : Bool
deriving DecidableEq, Repr

/-- The configuration state `agent_chat` consults: whether each of the three
API keys is set (`settings.assemblyai_api_key` etc., as booleans, matching
`Settings.get_api_key_status`) and `settings.max_history_length`. -/
structure Config where
  assemblyaiKey : Bool
  geminiKey : Bool
  murfKey : Bool
  max_history_length : Nat
deriving DecidableEq, Repr

/-- `Settings.all_apis_configured` from `settings.py`. -/
def Config.all_apis_configured (c : Config) : Bool :=
  c.assemblyaiKey && c.geminiKey && c.murfKey

/-- `FallbackResponses.get_fallback` from `settings.py`: total lookup from an
error category string to the apology message, defaulting to the
`general_failure` message. -/
def get_fallback (errorType : String) : String :=
  if errorType = "stt_failure" then
    "I'm having trouble understanding your voice right now. Please try again."
  else if errorType = "llm_failure" then
    "I'm having trouble processing your request. Please try again."
  else if errorType = "tts_failure" then
    "I'm having trouble speaking right now. Please try again."
  else if errorType = "general_failure" then
    "I'm experiencing technical difficulties. Please try again later."
  else if errorType = "api_keys_missing" then
    "I'm not properly configured. Please check the server setup."
  else
    "I'm experiencing technical difficulties. Please try again later."

/-- `TTSService.generate_fallback_audio` from `tts_service.py`: returns a
constant placeholder URL regardless of the message. -/
def generate_fallback_audio (_message : String) : String :=
  "https://example.com/fallback-audio.mp3"

/-- Outcome of the Murf HTTP call inside `TTSService.generate_speech`:
timeout, non-2xx status, other exception, or a 2xx JSON body whose
`audioFile` field is `none` (absent) or `some url`. -/
inductive MurfOutcome where
  | timeout
  | httpStatusError (code : Nat) (body : String)
  | exceptionRaised (msg : String)
  | ok (audioFile : Option String)
deriving DecidableEq, Repr

/-- The text-length enforcement of `TTSService.generate_speech`
(`tts_service.py` lines 49-53): text over 3000 characters is replaced by its
first 2997 characters followed by `"..."` before being dispatched to Murf. -/
def murfDispatchText (text : String) : String :=
  if text.length > 3000 then text.take 2997 ++ "..." else text

/-- `TTSService.generate_speech` from `tts_service.py`: checks the API key,
truncates the text, performs the HTTP call (its outcome given as an oracle)
and maps the outcome to a `TTSResponse`. A 2xx body whose `audioFile` is
absent or empty (Python `if not audio_url`) is a failure. -/
def generate_speech (apiKeyConfigured : Bool) (text : String)
    (outcome : MurfOutcome) : TTSResponse :=
  if !apiKeyConfigured then
    ⟨"", false, some "TTS service not configured"⟩
  else
    let _dispatched := murfDispatchText text
    match outcome with
    | .timeout => ⟨"", false, some "TTS request timed out"⟩
    | .httpStatusError code body =>
        ⟨"", false, some ("TTS API error: " ++ toString code ++ " - " ++ body)⟩
    | .exceptionRaised msg =>
        ⟨"", false, some ("TTS generation failed: " ++ msg)⟩
    | .ok audioFile =>
        match audioFile with
        | none => ⟨"", false, some "No audio URL received from Murf API"⟩
        | some url =>
            if url = "" then ⟨"", false, some "No audio URL received from Murf API"⟩
            else ⟨url, true, none⟩

/-! ### The in-memory session store (`chat_history` dict) -/

/-- The session store `chat_history : Dict[str, List[ConversationMessage]]`
from `main.py`, modelled as an insertion-ordered association list with
Python-dict key semantics (unique keys; updates in place, new keys appended). -/
abbrev Store := List (String × List ConversationMessage)

/-- Python `chat_history.get(k)` / `k in chat_history`: value at a key. -/
def dictLookup (d : Store) (k : String) : Option (List ConversationMessage) :=
  (d.find? (fun p => p.1 = k)).map (fun p => p.2)

/-- Python `chat_history[k] = v`: update in place if the key is present,
otherwise append the new binding (dicts preserve insertion order and hold
each key at most once). -/
def dictInsert : Store → String → List ConversationMessage → Store
  | [], k, v => [(k, v)]
  | p :: rest, k, v =>
      if p.1 = k then (k, v) :: rest else p :: dictInsert rest k v

/-- Python `del chat_history[k]`: remove the binding if present. -/
def dictErase (d : Store) (k : String) : Store :=
  d.filter (fun p => !(p.1 = k : Bool))

/-- Python `chat_history.setdefault(k, v)`: return the stored value and the
(possibly extended) dict; inserts `v` only when the key is absent. -/
def dictSetdefault (d : Store) (k : String) (v : List ConversationMessage) :
    List ConversationMessage × Store :=
  match dictLookup d k with
  | some w => (w, d)
  | none => (v, d ++ [(k, v)])

/-- Python `l[-n:]` for `n ≥ 0`, as used in `history[-settings.max_history_length:]`:
the last `n` elements — except that `l[-0:]` is the whole list. -/
def pySliceLast (l : List ConversationMessage) (n : Nat) : List ConversationMessage :=
  if n = 0 then l else l.drop (l.length - n)

/-- The sliding-window step of `agent_chat` (`main.py` lines 339-342): if the
history exceeds `max_history_length`, keep `history[-max_history_length:]`. -/
def evictIfOver (maxLen : Nat) (l : List ConversationMessage) :
    List ConversationMessage :=
  if l.length > maxLen then pySliceLast l maxLen else l

/-! ### The session-scoped pipeline (`agent_chat`) -/

/-- One adapter invocation made by `agent_chat`, recording the arguments the
adapter receives (the LLM call records its prompt and history arguments,
`llm_service.generate_response(transcription, history[:-1])`). -/
inductive AdapterCall where
  | sttCall
  | llmCall (prompt : String) (history : List ConversationMessage)
  | ttsCall (text : String)
deriving DecidableEq, Repr

/-- Whether a recorded adapter invocation is a call to the LLM adapter. -/
def AdapterCall.isLlm : AdapterCall → Bool
  | .llmCall _ _ => true
  | _ => false

/-- The per-request oracle: the `TranscriptionResponse` the STT service
returns, the `LLMResponse` the LLM service returns, and the raw Murf HTTP
outcome consumed by `generate_speech`. -/
structure TurnInput where
  stt : TranscriptionResponse
  llm : LLMResponse
  murf : MurfOutcome
deriving DecidableEq, Repr

/-- Result of one `agent_chat` request: the response envelope, the session
store after the request, and the adapter calls made during the request. -/
structure AgentOutput where
  result : VoiceQueryResponse
  store : Store
  calls : List AdapterCall
deriving Repr

/-- The `POST /agent/chat/{session_id}` handler `agent_chat` from `main.py`
(lines 290-406), for requests whose file handling succeeds:
pre-flight API-key check, session `setdefault`, STT, user-message append with
sliding-window eviction, LLM call on `history[:-1]`, assistant-message append,
TTS via `generate_speech`, and fallback routing on each failure. -/
def agent_chat (cfg : Config) (store : Store) (session_id : String)
    (inp : TurnInput) : AgentOutput :=
  if !cfg.all_apis_configured then
    { result :=
        { session_id := session_id
          audio_url := generate_fallback_audio (get_fallback "api_keys_missing")
          transcription := "API keys not configured"
          llm_response := get_fallback "api_keys_missing"
          history_length := 0
          error := some "api_keys_missing"
          success := false }
      store := store
      calls := [] }
  else
    let history := (dictSetdefault store session_id []).1
    let store1 := (dictSetdefault store session_id []).2
    let transcription_result := inp.stt
    if !transcription_result.success then
      { result :=
          { session_id := session_id
            audio_url := generate_fallback_audio (get_fallback "stt_failure")
            transcription := "Could not transcribe audio"
            llm_response := get_fallback "stt_failure"
            history_length := history.length
            error := some "stt_failure"
            success := false }
        store := store1
        calls := [.sttCall] }
    else
      let user_message : ConversationMessage :=
        ⟨.user, transcription_result.transcription⟩
      let history1 := history ++ [user_message]
      let store2 := dictInsert store1 session_id history1
      let history2 := evictIfOver cfg.max_history_length history1
      let store3 :=
        if history1.length > cfg.max_history_length then
          dictInsert store2 session_id history2
        else store2
      let llm_result := inp.llm
      let llmRecord := AdapterCall.llmCall transcription_result.transcription
        history2.dropLast
      if !llm_result.success then
        { result :=
            { session_id := session_id
              audio_url := generate_fallback_audio (get_fallback "llm_failure")
              transcription := transcription_result.transcription
              llm_response := llm_result.response
              history_length := history2.length
              error := some "llm_failure"
              success := false }
          store := store3
          calls := [.sttCall, llmRecord] }
      else
        let assistant_message : ConversationMessage :=
          ⟨.assistant, llm_result.response⟩
        let history3 := history2 ++ [assistant_message]
        let store4 := dictInsert store3 session_id history3
        let tts_result := generate_speech cfg.murfKey llm_result.response inp.murf
        { result :=
            { session_id := session_id
              audio_url :=
                if tts_result.success then tts_result.audio_url
                else generate_fallback_audio (get_fallback "tts_failure")
              transcription := transcription_result.transcription
              llm_response := llm_result.response
              history_length := history3.length
              error := if tts_result.success then none else some "tts_failure"
              success := tts_result.success }
          store := store4
          calls := [.sttCall, llmRecord, .ttsCall llm_result.response] }

/-- The `general_failure` catch-all branch of `agent_chat`
(`main.py` lines 390-402), reached when an unexpected exception escapes the
pipeline body. -/
def generalFailureResponse (store : Store) (session_id : String) :
    VoiceQueryResponse :=
  { session_id := session_id
    audio_url := generate_fallback_audio (get_fallback "general_failure")
    transcription := "Error occurred"
    llm_response := get_fallback "general_failure"
    history_length := ((dictLookup store session_id).getD []).length
    error := some "general_failure"
    success := false }

/-- The `DELETE /agent/chat/{session_id}` handler `clear_session` from
`main.py` (lines 409-416): delete the entry if present, and in every case
return the confirmation message. -/
def clear_session (store : Store) (session_id : String) : Store × String :=
  if (dictLookup store session_id).isSome then
    (dictErase store session_id, "Session " ++ session_id ++ " cleared")
  else
    (store, "Session " ++ session_id ++ " cleared")

/-! ### Sequences of requests -/

/-- Run a sequence of `agent_chat` turns against one session, threading the
store; returns the final store. -/
def runTurns (cfg : Config) (session_id : String) (inputs : List TurnInput)
    (store : Store) : Store :=
  match inputs with
  | [] => store
  | i :: rest => runTurns cfg session_id rest (agent_chat cfg store session_id i).store

/-- A request against the session store: an `agent_chat` turn or a
`clear_session` call. -/
inductive Op where
  | turn (session_id : String) (inp : TurnInput)
  | clear (session_id : String)
deriving Repr

/-- Run a sequence of requests, threading the store. -/
def runOps (cfg : Config) (ops : List Op) (store : Store) : Store :=
  match ops with
  | [] => store
  | .turn sid i :: rest => runOps cfg rest (agent_chat cfg store sid i).store
  | .clear sid :: rest => runOps cfg rest (clear_session store sid).1

/-- A turn oracle under which all three stages succeed: STT succeeds, the LLM
succeeds, and `generate_speech` (with the Murf key configured) succeeds. -/
def TurnInput.allStagesSucceed (i : TurnInput) : Bool :=
  i.stt.success && i.llm.success && (generate_speech true i.llm.response i.murf).success

/-! ### Dictionary lemmas -/

theorem dictLookup_nil (k : String) : dictLookup [] k = none := rfl

theorem dictLookup_cons (p : String × List ConversationMessage) (d : Store)
    (k : String) :
    dictLookup (p :: d) k = if p.1 = k then some p.2 else dictLookup d k := by
  by_cases h : p.1 = k <;> simp [dictLookup, List.find?, h]

theorem dictLookup_insert_self (d : Store) (k : String)
    (v : List ConversationMessage) : dictLookup (dictInsert d k v) k = some v := by
  induction d with
  | nil => simp [dictInsert, dictLookup_cons]
  | cons p rest ih =>
    by_cases h : p.1 = k
    · simp [dictInsert, h, dictLookup_cons]
    · simp [dictInsert, h, dictLookup_cons, ih]

theorem dictLookup_insert_ne (d : Store) (k k' : String)
    (v : List ConversationMessage) (h : k' ≠ k) :
    dictLookup (dictInsert d k v) k' = dictLookup d k' := by
  induction d with
  | nil => simp [dictInsert, dictLookup_cons, dictLookup_nil, Ne.symm h]
  | cons p rest ih =>
    by_cases hp : p.1 = k
    · have h2 : ¬ (p.1 = k') := by rw [hp]; exact Ne.symm h
      simp [dictInsert, hp, dictLookup_cons, Ne.symm h, h2]
    · simp [dictInsert, hp, dictLookup_cons, ih]

theorem dictErase_cons (p : String × List ConversationMessage) (d : Store)
    (k : String) :
    dictErase (p :: d) k =
      if p.1 = k then dictErase d k else p :: dictErase d k := by
  by_cases h : p.1 = k <;> simp [dictErase, List.filter_cons, h]

theorem dictLookup_erase_self (d : Store) (k : String) :
    dictLookup (dictErase d k) k = none := by
  induction d with
  | nil => rfl
  | cons p rest ih =>
    by_cases h : p.1 = k
    · simpa [dictErase_cons, h] using ih
    · simpa [dictErase_cons, h, dictLookup_cons] using ih

theorem dictLookup_erase_ne (d : Store) (k k' : String) (h : k' ≠ k) :
    dictLookup (dictErase d k) k' = dictLookup d k' := by
  induction d with
  | nil => rfl
  | cons p rest ih =>
    by_cases hp : p.1 = k
    · have h2 : ¬ (p.1 = k') := by rw [hp]; exact Ne.symm h
      simpa [dictErase_cons, hp, dictLookup_cons, h2, Ne.symm h] using ih
    · simp [dictErase_cons, hp, dictLookup_cons, ih]

theorem dictSetdefault_lookup_some (d : Store) (k : String)
    (v w : List ConversationMessage) (h : dictLookup d k = some w) :
    dictSetdefault d k v = (w, d) := by
  simp [dictSetdefault, h]

theorem dictSetdefault_lookup_none (d : Store) (k : String)
    (v : List ConversationMessage) (h : dictLookup d k = none) :
    dictSetdefault d k v = (v, d ++ [(k, v)]) := by
  simp [dictSetdefault, h]

/-! ### Service-level lemmas -/

theorem generate_speech_success_url_ne_empty (k : Bool) (t : String)
    (o : MurfOutcome) (h : (generate_speech k t o).success = true) :
    (generate_speech k t o).audio_url ≠ "" := by
  cases k with
  | false => simp [generate_speech] at h
  | true =>
    cases o with
    | timeout => simp [generate_speech] at h
    | httpStatusError code body => simp [generate_speech] at h
    | exceptionRaised msg => simp [generate_speech] at h
    | ok audioFile =>
      cases audioFile with
      | none => simp [generate_speech] at h
      | some url =>
        by_cases hu : url = ""
        · simp [generate_speech, hu] at h
        · simp [generate_speech, hu]

/-! ### Claim theorems: fallback audio and session clearing -/

/-- C10: `generate_fallback_audio` returns the same constant placeholder URL
(`https://example.com/fallback-audio.mp3`) for every apology message; its
output is independent of the message, so the fallback audio content never
varies with the error category. -/
theorem fallback_audio_constant :
    (∀ message : String,
      generate_fallback_audio message = "https://example.com/fallback-audio.mp3") ∧
    (∀ m1 m2 : String,
      generate_fallback_audio m1 = generate_fallback_audio m2) :=
  ⟨fun _ => rfl, fun _ _ => rfl⟩

/-- C9: `clear_session` is idempotent: after one call the session is absent;
a second consecutive call leaves the session absent, leaves the store
unchanged, and returns the same normal confirmation message rather than an
error; clearing a never-created session is also not an error and leaves the
store unchanged. -/
theorem clear_session_idempotent (store : Store) (sid : String) :
    dictLookup (clear_session store sid).1 sid = none ∧
    clear_session (clear_session store sid).1 sid =
      ((clear_session store sid).1, "Session " ++ sid ++ " cleared") ∧
    (clear_session store sid).2 = "Session " ++ sid ++ " cleared" ∧
    (dictLookup store sid = none → (clear_session store sid).1 = store) := by
  have habsent : dictLookup (clear_session store sid).1 sid = none := by
    by_cases h : (dictLookup store sid).isSome
    · simp only [clear_session, h, if_true]
      exact dictLookup_erase_self store sid
    · simp only [clear_session, h, if_false]
      exact Option.not_isSome_iff_eq_none.mp h
  refine ⟨habsent, ?_, ?_, ?_⟩
  · have h2 : ¬ (dictLookup (clear_session store sid).1 sid).isSome = true := by
      simp [habsent]
    generalize (clear_session store sid).1 = s1 at h2 ⊢
    simp [clear_session, h2]
  · by_cases h : (dictLookup store sid).isSome <;> simp [clear_session, h]
  · intro h
    simp [clear_session, h]

/-- Witness for C9 at concrete stores. -/
theorem clear_session_idempotent_witness :
    dictLookup (clear_session [("s", [])] "s").1 "s" = none ∧
    (clear_session [] "s").1 = ([] : Store) :=
  ⟨(clear_session_idempotent [("s", [])] "s").1,
   (clear_session_idempotent [] "s").2.2.2 rfl⟩

/-! ### Claim theorem: TTS text-length enforcement -/

/-- C7: the TTS stage never fails on text length: text of at most 3000
characters is dispatched to Murf unchanged, longer text is truncated to its
first 2997 characters with `"..."` appended, and the dispatched text never
exceeds 3000 characters. -/
theorem murf_text_truncation (text : String) :
    (text.length ≤ 3000 → murfDispatchText text = text) ∧
    (3000 < text.length → murfDispatchText text = text.take 2997 ++ "...") ∧
    (murfDispatchText text).length ≤ 3000 := by
  refine ⟨fun h => ?_, fun h => ?_, ?_⟩
  · simp [murfDispatchText, Nat.not_lt.mpr h]
  · simp [murfDispatchText, h]
  · by_cases h : 3000 < text.length
    · have htake : (text.take 2997).length = 2997 := by
        rw [String.take_eq]
        show (text.data.take 2997).length = 2997
        rw [List.length_take]
        have hd : text.data.length = text.length := rfl
        omega
      rw [murfDispatchText, if_pos h, String.length_append, htake]
      have h3 : ("..." : String).length = 3 := rfl
      omega
    · rw [murfDispatchText, if_neg h]
      omega

/-- Witness for C7 at concrete inputs: a short text passes unchanged and a
3001-character text is cut to exactly 3000 characters. -/
theorem murf_text_truncation_witness :
    murfDispatchText "hello" = "hello" ∧
    (murfDispatchText (String.mk (List.replicate 3001 'a'))).length ≤ 3000 :=
  ⟨(murf_text_truncation "hello").1 (by decide),
   (murf_text_truncation (String.mk (List.replicate 3001 'a'))).2.2⟩

/-! ### Sliding-window lemmas -/

theorem pySliceLast_concat (l : List ConversationMessage)
    (m : ConversationMessage) (n : Nat) :
    pySliceLast (l ++ [m]) n = (pySliceLast (l ++ [m]) n).dropLast ++ [m] := by
  unfold pySliceLast
  by_cases hn : n = 0
  · simp [hn, List.dropLast_concat]
  · have hle : (l ++ [m]).length - n ≤ l.length := by
      simp only [List.length_append, List.length_cons, List.length_nil]
      omega
    simp only [hn, if_false]
    rw [List.drop_append_of_le_length hle, List.dropLast_concat]

theorem evictIfOver_concat_ends (maxLen : Nat) (l : List ConversationMessage)
    (m : ConversationMessage) :
    evictIfOver maxLen (l ++ [m]) =
      (evictIfOver maxLen (l ++ [m])).dropLast ++ [m] := by
  unfold evictIfOver
  by_cases h : (l ++ [m]).length > maxLen
  · simp only [h, if_true]
    exact pySliceLast_concat l m maxLen
  · have h' : ¬ maxLen < l.length + 1 := by
      simpa [List.length_append] using h
    simp [h', List.dropLast_concat]

/-! ### Claim theorems: failure routing in `agent_chat` -/

/-- C5: when any of the three API keys is unconfigured, `agent_chat`
short-circuits before any pipeline stage: no adapter is invoked, the session
store is unmodified, and the result carries error `api_keys_missing`,
`success = false`, the fallback audio URL, and `history_length = 0`. -/
theorem preflight_api_keys_missing (cfg : Config) (store : Store)
    (sid : String) (inp : TurnInput)
    (h : cfg.assemblyaiKey = false ∨ cfg.geminiKey = false ∨ cfg.murfKey = false) :
    (agent_chat cfg store sid inp).calls = [] ∧
    (agent_chat cfg store sid inp).store = store ∧
    (agent_chat cfg store sid inp).result.error = some "api_keys_missing" ∧
    (agent_chat cfg store sid inp).result.success = false ∧
    (agent_chat cfg store sid inp).result.audio_url =
      generate_fallback_audio (get_fallback "api_keys_missing") ∧
    (agent_chat cfg store sid inp).result.history_length = 0 := by
  have hall : cfg.all_apis_configured = false := by
    rcases h with h | h | h <;> simp [Config.all_apis_configured, h]
  refine ⟨?_, ?_, ?_, ?_, ?_, ?_⟩ <;> simp [agent_chat, hall]

/-- Witness for C5: with the AssemblyAI key missing, the pre-flight check
fires and nothing is invoked or stored. -/
theorem preflight_api_keys_missing_witness :
    (agent_chat ⟨false, true, true, 50⟩ [] "s"
      ⟨⟨"hello", true⟩, ⟨"hi", true⟩, .ok (some "http://x/a.mp3")⟩).calls = [] ∧
    (agent_chat ⟨false, true, true, 50⟩ [] "s"
      ⟨⟨"hello", true⟩, ⟨"hi", true⟩, .ok (some "http://x/a.mp3")⟩).store = [] :=
  ⟨(preflight_api_keys_missing ⟨false, true, true, 50⟩ [] "s"
      ⟨⟨"hello", true⟩, ⟨"hi", true⟩, .ok (some "http://x/a.mp3")⟩ (Or.inl rfl)).1,
   (preflight_api_keys_missing ⟨false, true, true, 50⟩ [] "s"
      ⟨⟨"hello", true⟩, ⟨"hi", true⟩, .ok (some "http://x/a.mp3")⟩ (Or.inl rfl)).2.1⟩

/-- C4: when STT and the LLM succeed but TTS fails, the result keeps the real
transcription and LLM response, substitutes the fallback audio URL, reports
error `tts_failure` and `success = false`. -/
theorem tts_failure_preserves_upstream (cfg : Config) (store : Store)
    (sid : String) (inp : TurnInput)
    (hc : cfg.all_apis_configured = true)
    (hstt : inp.stt.success = true)
    (hllm : inp.llm.success = true)
    (htts : (generate_speech cfg.murfKey inp.llm.response inp.murf).success = false) :
    (agent_chat cfg store sid inp).result.transcription = inp.stt.transcription ∧
    (agent_chat cfg store sid inp).result.llm_response = inp.llm.response ∧
    (agent_chat cfg store sid inp).result.audio_url =
      generate_fallback_audio (get_fallback "tts_failure") ∧
    (agent_chat cfg store sid inp).result.error = some "tts_failure" ∧
    (agent_chat cfg store sid inp).result.success = false := by
  refine ⟨?_, ?_, ?_, ?_, ?_⟩ <;> simp [agent_chat, hc, hstt, hllm, htts]

/-- Witness for C4: a concrete turn whose Murf call times out. -/
theorem tts_failure_preserves_upstream_witness :
    (agent_chat ⟨true, true, true, 50⟩ [] "s"
      ⟨⟨"hello", true⟩, ⟨"hi", true⟩, .timeout⟩).result.error = some "tts_failure" ∧
    (agent_chat ⟨true, true, true, 50⟩ [] "s"
      ⟨⟨"hello", true⟩, ⟨"hi", true⟩, .timeout⟩).result.success = false :=
  ⟨(tts_failure_preserves_upstream ⟨true, true, true, 50⟩ [] "s"
      ⟨⟨"hello", true⟩, ⟨"hi", true⟩, .timeout⟩ rfl rfl rfl rfl).2.2.2.1,
   (tts_failure_preserves_upstream ⟨true, true, true, 50⟩ [] "s"
      ⟨⟨"hello", true⟩, ⟨"hi", true⟩, .timeout⟩ rfl rfl rfl rfl).2.2.2.2⟩

/-- C3 counterexample: on an STT failure for a previously unseen session id,
the session store does not stay unchanged — `chat_history.setdefault`
(`main.py` line 315) has already created an empty entry for the session. -/
theorem stt_failure_store_counterexample :
    (agent_chat ⟨true, true, true, 50⟩ [] "s"
      ⟨⟨"", false⟩, ⟨"", true⟩, .ok none⟩).store ≠ ([] : Store) := by
  decide

/-- C3 amended: when STT fails, the LLM and TTS adapters are never invoked
(the request makes exactly the one STT call), and no messages are appended:
an existing session's history is untouched, while a previously absent session
id is merely created with an empty history by the get-or-create access. -/
theorem stt_failure_skips_downstream (cfg : Config) (store : Store)
    (sid : String) (inp : TurnInput)
    (hc : cfg.all_apis_configured = true)
    (hstt : inp.stt.success = false) :
    (agent_chat cfg store sid inp).calls = [AdapterCall.sttCall] ∧
    ((dictLookup store sid).isSome →
      (agent_chat cfg store sid inp).store = store) ∧
    (dictLookup store sid = none →
      (agent_chat cfg store sid inp).store = store ++ [(sid, [])]) := by
  have hcalls : (agent_chat cfg store sid inp).calls = [AdapterCall.sttCall] := by
    simp [agent_chat, hc, hstt]
  have hstore : (agent_chat cfg store sid inp).store =
      (dictSetdefault store sid []).2 := by
    simp [agent_chat, hc, hstt]
  refine ⟨hcalls, fun hsome => ?_, fun hnone => ?_⟩
  · obtain ⟨w, hw⟩ := Option.isSome_iff_exists.mp hsome
    rw [hstore, dictSetdefault_lookup_some store sid [] w hw]
  · rw [hstore, dictSetdefault_lookup_none store sid [] hnone]

/-- Witness for C3 amended: concrete STT-failing turns against an existing
and against a fresh session. -/
theorem stt_failure_skips_downstream_witness :
    (agent_chat ⟨true, true, true, 50⟩ [("s", [⟨.user, "a"⟩])] "s"
      ⟨⟨"", false⟩, ⟨"", true⟩, .ok none⟩).calls = [AdapterCall.sttCall] ∧
    (agent_chat ⟨true, true, true, 50⟩ [("s", [⟨.user, "a"⟩])] "s"
      ⟨⟨"", false⟩, ⟨"", true⟩, .ok none⟩).store = [("s", [⟨.user, "a"⟩])] :=
  ⟨(stt_failure_skips_downstream ⟨true, true, true, 50⟩ [("s", [⟨.user, "a"⟩])] "s"
      ⟨⟨"", false⟩, ⟨"", true⟩, .ok none⟩ rfl rfl).1,
   (stt_failure_skips_downstream ⟨true, true, true, 50⟩ [("s", [⟨.user, "a"⟩])] "s"
      ⟨⟨"", false⟩, ⟨"", true⟩, .ok none⟩ rfl rfl).2.1 (by decide)⟩

/-- C8: on every request and every outcome the returned envelope's
`audio_url` is non-empty — the successfully synthesized URL or the fallback
audio URL — and the `general_failure` catch-all branch likewise carries the
non-empty fallback URL. -/
theorem audio_url_always_nonempty (cfg : Config) (store : Store)
    (sid : String) (inp : TurnInput) :
    (agent_chat cfg store sid inp).result.audio_url ≠ "" ∧
    ((agent_chat cfg store sid inp).result.audio_url =
        (generate_speech cfg.murfKey inp.llm.response inp.murf).audio_url ∨
      (agent_chat cfg store sid inp).result.audio_url =
        "https://example.com/fallback-audio.mp3") ∧
    (generalFailureResponse store sid).audio_url ≠ "" := by
  have hconst : ("https://example.com/fallback-audio.mp3" : String) ≠ "" := by
    decide
  have hgen : (generalFailureResponse store sid).audio_url =
      "https://example.com/fallback-audio.mp3" := rfl
  refine ⟨?_, ?_, hgen ▸ hconst⟩
  all_goals by_cases hc : cfg.all_apis_configured = true
  case neg | neg =>
    have hc' : cfg.all_apis_configured = false := by
      cases hch : cfg.all_apis_configured
      · rfl
      · exact absurd hch hc
    simp [agent_chat, hc', generate_fallback_audio, hconst]
  all_goals by_cases hstt : inp.stt.success = true
  case neg | neg =>
    have hstt' : inp.stt.success = false := by
      cases hsh : inp.stt.success
      · rfl
      · exact absurd hsh hstt
    simp [agent_chat, hc, hstt', generate_fallback_audio, hconst]
  all_goals by_cases hllm : inp.llm.success = true
  case neg | neg =>
    have hllm' : inp.llm.success = false := by
      cases hlh : inp.llm.success
      · rfl
      · exact absurd hlh hllm
    simp [agent_chat, hc, hstt, hllm', generate_fallback_audio, hconst]
  all_goals by_cases htts :
    (generate_speech cfg.murfKey inp.llm.response inp.murf).success = true
  · have hurl := generate_speech_success_url_ne_empty _ _ _ htts
    simpa [agent_chat, hc, hstt, hllm, htts] using hurl
  · simp [agent_chat, hc, hstt, hllm, htts, generate_fallback_audio, hconst]
  · simp [agent_chat, hc, hstt, hllm, htts]
  · simp [agent_chat, hc, hstt, hllm, htts, generate_fallback_audio]

/-- Witness for C8 at a concrete failing request: the fallback URL is
returned and is non-empty. -/
theorem audio_url_always_nonempty_witness :
    (agent_chat ⟨true, true, true, 50⟩ [] "s"
      ⟨⟨"hello", true⟩, ⟨"hi", true⟩, .timeout⟩).result.audio_url ≠ "" :=
  (audio_url_always_nonempty ⟨true, true, true, 50⟩ [] "s"
    ⟨⟨"hello", true⟩, ⟨"hi", true⟩, .timeout⟩).1

/-- C6: on a successful transcription the LLM adapter is invoked exactly
once, with the current transcription as the prompt and, as history, exactly
the session's stored messages after the current-turn user append and
sliding-window eviction, minus that just-appended user message; the excluded
last element is indeed that user message. -/
theorem llm_receives_prior_history (cfg : Config) (store : Store)
    (sid : String) (inp : TurnInput)
    (hc : cfg.all_apis_configured = true)
    (hstt : inp.stt.success = true) :
    (agent_chat cfg store sid inp).calls.filter AdapterCall.isLlm =
      [AdapterCall.llmCall inp.stt.transcription
        (evictIfOver cfg.max_history_length
          ((dictSetdefault store sid []).1 ++
            [⟨MessageRole.user, inp.stt.transcription⟩])).dropLast] ∧
    evictIfOver cfg.max_history_length
        ((dictSetdefault store sid []).1 ++
          [⟨MessageRole.user, inp.stt.transcription⟩]) =
      (evictIfOver cfg.max_history_length
        ((dictSetdefault store sid []).1 ++
          [⟨MessageRole.user, inp.stt.transcription⟩])).dropLast ++
        [⟨MessageRole.user, inp.stt.transcription⟩] := by
  constructor
  · by_cases hllm : inp.llm.success = true
    · simp [agent_chat, hc, hstt, hllm, AdapterCall.isLlm, List.filter_cons]
    · have hllm' : inp.llm.success = false := by
        cases hlh : inp.llm.success
        · rfl
        · exact absurd hlh hllm
      simp [agent_chat, hc, hstt, hllm', AdapterCall.isLlm, List.filter_cons]
  · exact evictIfOver_concat_ends cfg.max_history_length
      (dictSetdefault store sid []).1 ⟨MessageRole.user, inp.stt.transcription⟩

/-- Witness for C6: a concrete second turn over a one-turn history; the LLM
receives the prior two messages and not the current user message. -/
theorem llm_receives_prior_history_witness :
    (agent_chat ⟨true, true, true, 50⟩
        [("s", [⟨.user, "a"⟩, ⟨.assistant, "b"⟩])] "s"
        ⟨⟨"hello", true⟩, ⟨"hi", true⟩, .ok (some "http://x/a.mp3")⟩).calls.filter
        AdapterCall.isLlm =
      [AdapterCall.llmCall "hello" [⟨.user, "a"⟩, ⟨.assistant, "b"⟩]] := by
  have h := (llm_receives_prior_history ⟨true, true, true, 50⟩
    [("s", [⟨.user, "a"⟩, ⟨.assistant, "b"⟩])] "s"
    ⟨⟨"hello", true⟩, ⟨"hi", true⟩, .ok (some "http://x/a.mp3")⟩ rfl rfl).1
  rw [h]
  decide

/-! ### Store-effect lemmas for `agent_chat` -/

theorem dictLookup_append_single_ne (d : Store) (k k' : String)
    (v : List ConversationMessage) (h : k' ≠ k) :
    dictLookup (d ++ [(k, v)]) k' = dictLookup d k' := by
  induction d with
  | nil => simp [dictLookup_nil, dictLookup_cons, Ne.symm h]
  | cons p rest ih => simp [dictLookup_cons, ih]

theorem dictSetdefault_fst (d : Store) (k : String)
    (v : List ConversationMessage) :
    (dictSetdefault d k v).1 = (dictLookup d k).getD v := by
  cases h : dictLookup d k <;> simp [dictSetdefault, h]

theorem dictLookup_setdefault_ne (d : Store) (k k' : String)
    (v : List ConversationMessage) (h : k' ≠ k) :
    dictLookup (dictSetdefault d k v).2 k' = dictLookup d k' := by
  cases hl : dictLookup d k with
  | some w => simp [dictSetdefault, hl]
  | none => simp [dictSetdefault, hl, dictLookup_append_single_ne d k k' v h]

theorem dictLookup_setdefault_self (d : Store) (k : String)
    (v : List ConversationMessage) :
    dictLookup (dictSetdefault d k v).2 k = some ((dictLookup d k).getD v) := by
  cases hl : dictLookup d k with
  | some w => simp [dictSetdefault, hl]
  | none =>
    simp only [dictSetdefault, hl, Option.getD_none]
    induction d with
    | nil => simp [dictLookup_cons]
    | cons p rest ih =>
      by_cases hp : p.1 = k
      · rw [dictLookup_cons] at hl
        simp [hp] at hl
      · rw [dictLookup_cons] at hl
        simp only [hp, if_false] at hl
        simpa [dictLookup_cons, hp] using ih hl

theorem evictIfOver_length (maxLen : Nat) (hpos : 0 < maxLen)
    (l : List ConversationMessage) :
    (evictIfOver maxLen l).length =
      if l.length > maxLen then maxLen else l.length := by
  have hn : ¬ maxLen = 0 := by omega
  by_cases h : l.length > maxLen
  · simp only [evictIfOver, pySliceLast, h, if_true, hn, if_false,
      List.length_drop]
    omega
  · simp [evictIfOver, h]

/-- The store effect and reported history length of one fully successful
session turn: the stored history becomes the evicted
`old ++ [user]` followed by the assistant message; other sessions are
untouched. -/
theorem agent_chat_success_turn (cfg : Config) (store : Store) (sid : String)
    (inp : TurnInput)
    (hc : cfg.all_apis_configured = true)
    (hstt : inp.stt.success = true)
    (hllm : inp.llm.success = true) :
    dictLookup (agent_chat cfg store sid inp).store sid =
      some (evictIfOver cfg.max_history_length
          (((dictLookup store sid).getD []) ++
            [⟨MessageRole.user, inp.stt.transcription⟩]) ++
        [⟨MessageRole.assistant, inp.llm.response⟩]) ∧
    (∀ k, k ≠ sid →
      dictLookup (agent_chat cfg store sid inp).store k = dictLookup store k) ∧
    (agent_chat cfg store sid inp).result.history_length =
      (evictIfOver cfg.max_history_length
        (((dictLookup store sid).getD []) ++
          [⟨MessageRole.user, inp.stt.transcription⟩])).length + 1 := by
  have hfst : (dictSetdefault store sid []).1 = (dictLookup store sid).getD [] :=
    dictSetdefault_fst store sid []
  by_cases hev :
      cfg.max_history_length < ((dictLookup store sid).getD []).length + 1
  · refine ⟨?_, fun k hk => ?_, ?_⟩
    · simp [agent_chat, hc, hstt, hllm, hfst, hev, dictLookup_insert_self]
    · simp [agent_chat, hc, hstt, hllm, hfst, hev, dictLookup_insert_ne, hk,
        dictLookup_setdefault_ne]
    · simp [agent_chat, hc, hstt, hllm, hfst, hev]
  · refine ⟨?_, fun k hk => ?_, ?_⟩
    · simp [agent_chat, hc, hstt, hllm, hfst, hev, dictLookup_insert_self]
    · simp [agent_chat, hc, hstt, hllm, hfst, hev, dictLookup_insert_ne, hk,
        dictLookup_setdefault_ne]
    · simp [agent_chat, hc, hstt, hllm, hfst, hev]

theorem evictIfOver_length_le (maxLen : Nat) (hpos : 0 < maxLen)
    (l : List ConversationMessage) :
    (evictIfOver maxLen l).length ≤ max maxLen l.length := by
  rw [evictIfOver_length maxLen hpos l]
  split <;> omega

/-- Store effect of a turn whose transcription succeeds but whose LLM call
fails: the stored history is the evicted `old ++ [user]`; other sessions are
untouched. -/
theorem agent_chat_llmfail_turn (cfg : Config) (store : Store) (sid : String)
    (inp : TurnInput)
    (hc : cfg.all_apis_configured = true)
    (hstt : inp.stt.success = true)
    (hllm : inp.llm.success = false) :
    dictLookup (agent_chat cfg store sid inp).store sid =
      some (evictIfOver cfg.max_history_length
        (((dictLookup store sid).getD []) ++
          [⟨MessageRole.user, inp.stt.transcription⟩])) ∧
    (∀ k, k ≠ sid →
      dictLookup (agent_chat cfg store sid inp).store k = dictLookup store k) := by
  have hfst : (dictSetdefault store sid []).1 = (dictLookup store sid).getD [] :=
    dictSetdefault_fst store sid []
  by_cases hev :
      cfg.max_history_length < ((dictLookup store sid).getD []).length + 1
  · refine ⟨?_, fun k hk => ?_⟩
    · simp [agent_chat, hc, hstt, hllm, hfst, hev, dictLookup_insert_self,
        evictIfOver, pySliceLast]
    · simp [agent_chat, hc, hstt, hllm, hfst, hev, dictLookup_insert_ne, hk,
        dictLookup_setdefault_ne]
  · refine ⟨?_, fun k hk => ?_⟩
    · simp [agent_chat, hc, hstt, hllm, hfst, hev, dictLookup_insert_self,
        evictIfOver, pySliceLast]
    · simp [agent_chat, hc, hstt, hllm, hfst, hev, dictLookup_insert_ne, hk,
        dictLookup_setdefault_ne]

/-- Store effect of a turn whose transcription fails: only the get-or-create
access happened. -/
theorem agent_chat_sttfail_store (cfg : Config) (store : Store) (sid : String)
    (inp : TurnInput)
    (hc : cfg.all_apis_configured = true)
    (hstt : inp.stt.success = false) :
    (agent_chat cfg store sid inp).store = (dictSetdefault store sid []).2 := by
  simp [agent_chat, hc, hstt]

/-- Store effect of a pre-flight-rejected turn: nothing happened. -/
theorem agent_chat_unconfigured_store (cfg : Config) (store : Store)
    (sid : String) (inp : TurnInput)
    (hc : cfg.all_apis_configured = false) :
    (agent_chat cfg store sid inp).store = store := by
  simp [agent_chat, hc]

/-- One `agent_chat` request, on any branch, preserves the invariant that
every stored history has at most `max_history_length + 1` messages. -/
theorem agent_chat_preserves_bound (cfg : Config) (store : Store)
    (sid : String) (inp : TurnInput) (hpos : 0 < cfg.max_history_length)
    (hinv : ∀ k l, dictLookup store k = some l →
      l.length ≤ cfg.max_history_length + 1) :
    ∀ k l, dictLookup (agent_chat cfg store sid inp).store k = some l →
      l.length ≤ cfg.max_history_length + 1 := by
  intro k l hl
  by_cases hc : cfg.all_apis_configured = true
  · by_cases hstt : inp.stt.success = true
    · have hbound : (evictIfOver cfg.max_history_length
          (((dictLookup store sid).getD []) ++
            [⟨MessageRole.user, inp.stt.transcription⟩])).length ≤
          cfg.max_history_length := by
        have hle := evictIfOver_length_le cfg.max_history_length hpos
          (((dictLookup store sid).getD []) ++
            [⟨MessageRole.user, inp.stt.transcription⟩])
        rw [evictIfOver_length cfg.max_history_length hpos] at hle ⊢
        split <;> omega
      by_cases hllm : inp.llm.success = true
      · obtain ⟨hself, hother, _⟩ :=
          agent_chat_success_turn cfg store sid inp hc hstt hllm
        by_cases hk : k = sid
        · subst hk
          rw [hself] at hl
          have hval := Option.some.inj hl
          rw [← hval, List.length_append]
          simpa using hbound
        · rw [hother k hk] at hl
          exact hinv k l hl
      · have hllm' : inp.llm.success = false := by
          cases hlh : inp.llm.success
          · rfl
          · exact absurd hlh hllm
        obtain ⟨hself, hother⟩ :=
          agent_chat_llmfail_turn cfg store sid inp hc hstt hllm'
        by_cases hk : k = sid
        · subst hk
          rw [hself] at hl
          have hval := Option.some.inj hl
          rw [← hval]
          omega
        · rw [hother k hk] at hl
          exact hinv k l hl
    · have hstt' : inp.stt.success = false := by
        cases hsh : inp.stt.success
        · rfl
        · exact absurd hsh hstt
      rw [agent_chat_sttfail_store cfg store sid inp hc hstt'] at hl
      by_cases hk : k = sid
      · subst hk
        rw [dictLookup_setdefault_self store k []] at hl
        have hval := Option.some.inj hl
        cases hs : dictLookup store k with
        | some w =>
          rw [hs] at hval
          simp only [Option.getD_some] at hval
          exact hval ▸ hinv k w hs
        | none =>
          rw [hs] at hval
          simp only [Option.getD_none] at hval
          rw [← hval]
          simp
      · rw [dictLookup_setdefault_ne store sid k [] hk] at hl
        exact hinv k l hl
  · have hc' : cfg.all_apis_configured = false := by
      cases hch : cfg.all_apis_configured
      · rfl
      · exact absurd hch hc
    rw [agent_chat_unconfigured_store cfg store sid inp hc'] at hl
    exact hinv k l hl

/-- `clear_session` preserves the history-length invariant. -/
theorem clear_session_preserves_bound (store : Store) (sid : String)
    (maxLen : Nat)
    (hinv : ∀ k l, dictLookup store k = some l → l.length ≤ maxLen + 1) :
    ∀ k l, dictLookup (clear_session store sid).1 k = some l →
      l.length ≤ maxLen + 1 := by
  intro k l hl
  by_cases h : (dictLookup store sid).isSome
  · simp only [clear_session, h, if_true] at hl
    by_cases hk : k = sid
    · subst hk
      rw [dictLookup_erase_self] at hl
      exact Option.noConfusion hl
    · rw [dictLookup_erase_ne store sid k hk] at hl
      exact hinv k l hl
  · simp only [clear_session, h, if_false] at hl
    exact hinv k l hl

/-- Any sequence of requests, starting from a store satisfying the
history-length invariant, preserves it. -/
theorem runOps_bound (cfg : Config) (hpos : 0 < cfg.max_history_length)
    (ops : List Op) :
    ∀ store, (∀ k l, dictLookup store k = some l →
        l.length ≤ cfg.max_history_length + 1) →
      ∀ k l, dictLookup (runOps cfg ops store) k = some l →
        l.length ≤ cfg.max_history_length + 1 := by
  induction ops with
  | nil => exact fun store hinv => hinv
  | cons op rest ih =>
    intro store hinv
    cases op with
    | turn sid i =>
      exact ih _ (agent_chat_preserves_bound cfg store sid i hpos hinv)
    | clear sid =>
      exact ih _ (clear_session_preserves_bound store sid
        cfg.max_history_length hinv)

theorem runTurns_concat (cfg : Config) (sid : String) (xs : List TurnInput)
    (x : TurnInput) (store : Store) :
    runTurns cfg sid (xs ++ [x]) store =
      (agent_chat cfg (runTurns cfg sid xs store) sid x).store := by
  induction xs generalizing store with
  | nil => rfl
  | cons y ys ih => simp [runTurns, ih]

/-- After `N` turns in which STT and the LLM succeed, starting from the empty
store, the stored history of the session has exactly
`min (2N) (max_history_length + 1)` messages. -/
theorem runTurns_storedLen (cfg : Config) (sid : String)
    (hc : cfg.all_apis_configured = true) (hpos : 0 < cfg.max_history_length)
    (inputs : List TurnInput)
    (hsucc : ∀ i ∈ inputs, i.stt.success = true ∧ i.llm.success = true) :
    ((dictLookup (runTurns cfg sid inputs []) sid).getD []).length =
      min (2 * inputs.length) (cfg.max_history_length + 1) := by
  induction inputs using List.reverseRecOn with
  | nil => simp [runTurns, dictLookup_nil]
  | append_singleton xs x ih =>
    have hxs : ∀ i ∈ xs, i.stt.success = true ∧ i.llm.success = true :=
      fun i hi => hsucc i (by simp [hi])
    have hx : x.stt.success = true ∧ x.llm.success = true :=
      hsucc x (by simp)
    rw [runTurns_concat]
    obtain ⟨hself, _, _⟩ := agent_chat_success_turn cfg
      (runTurns cfg sid xs []) sid x hc hx.1 hx.2
    rw [hself]
    simp only [Option.getD_some, List.length_append, List.length_cons,
      List.length_nil]
    rw [evictIfOver_length cfg.max_history_length hpos]
    have ihlen := ih hxs
    simp only [List.length_append, List.length_cons, List.length_nil]
    split <;> omega

/-! ### Claim theorems: history accounting -/

/-- C1 counterexample: with `max_history_length = 2`, the second fully
successful turn of a session reports `history_length = 3`, while the claim's
`min (2 * 2) 2 = 2` — the assistant message is appended after eviction with
no further length check, so the reported length exceeds the configured
maximum. -/
theorem history_length_counterexample :
    (agent_chat ⟨true, true, true, 2⟩
        (runTurns ⟨true, true, true, 2⟩ "s"
          [⟨⟨"u1", true⟩, ⟨"r1", true⟩, .ok (some "http://x/a.mp3")⟩] []) "s"
        ⟨⟨"u2", true⟩, ⟨"r2", true⟩, .ok (some "http://x/a.mp3")⟩).result.history_length
      = 3 ∧
    min (2 * 2) 2 = 2 := by
  constructor
  · decide
  · decide

/-- C1 amended: for every session starting empty and every `N ≥ 1`, after `N`
turns in which STT, LLM, and TTS all succeed, the `history_length` of the
`N`-th returned result equals `min (2 * N) (H + 1)` — not `min (2 * N) H` —
where `H > 0` is the configured `max_history_length`. -/
theorem history_length_after_turns (cfg : Config) (sid : String)
    (inputs : List TurnInput) (inp : TurnInput)
    (hc : cfg.all_apis_configured = true)
    (hpos : 0 < cfg.max_history_length)
    (hsucc : ∀ i ∈ inputs, i.stt.success = true ∧ i.llm.success = true ∧
      (generate_speech cfg.murfKey i.llm.response i.murf).success = true)
    (hstt : inp.stt.success = true) (hllm : inp.llm.success = true)
    (_htts : (generate_speech cfg.murfKey inp.llm.response inp.murf).success = true) :
    (agent_chat cfg (runTurns cfg sid inputs []) sid inp).result.history_length =
      min (2 * (inputs.length + 1)) (cfg.max_history_length + 1) := by
  obtain ⟨_, _, hlen⟩ := agent_chat_success_turn cfg
    (runTurns cfg sid inputs []) sid inp hc hstt hllm
  rw [hlen, evictIfOver_length cfg.max_history_length hpos]
  have hst := runTurns_storedLen cfg sid hc hpos inputs
    (fun i hi => ⟨(hsucc i hi).1, (hsucc i hi).2.1⟩)
  simp only [List.length_append, List.length_cons, List.length_nil]
  split <;> omega

/-- Witness for C1 amended: one prior successful turn and a second successful
turn with `max_history_length = 2` give `history_length = min 4 3 = 3`. -/
theorem history_length_after_turns_witness :
    (agent_chat ⟨true, true, true, 2⟩
        (runTurns ⟨true, true, true, 2⟩ "s"
          [⟨⟨"a1", true⟩, ⟨"b1", true⟩, .ok (some "http://x/b.mp3")⟩] []) "s"
        ⟨⟨"a2", true⟩, ⟨"b2", true⟩, .ok (some "http://x/b.mp3")⟩).result.history_length
      = 3 := by
  have h := history_length_after_turns ⟨true, true, true, 2⟩ "s"
    [⟨⟨"a1", true⟩, ⟨"b1", true⟩, .ok (some "http://x/b.mp3")⟩]
    ⟨⟨"a2", true⟩, ⟨"b2", true⟩, .ok (some "http://x/b.mp3")⟩
    rfl (by decide) (by decide) rfl rfl (by decide)
  rw [h]
  decide

/-- C2 counterexample: with `max_history_length = 2`, after two fully
successful turns the stored history holds 3 messages, exceeding the
configured maximum. -/
theorem history_bound_counterexample :
    2 < ((dictLookup (runOps ⟨true, true, true, 2⟩
        [.turn "s" ⟨⟨"u1", true⟩, ⟨"r1", true⟩, .ok (some "http://x/a.mp3")⟩,
         .turn "s" ⟨⟨"u2", true⟩, ⟨"r2", true⟩, .ok (some "http://x/a.mp3")⟩]
        []) "s").getD []).length := by
  decide

/-- C2 amended: for every positive configured maximum `H` and every sequence
of requests from an empty store, every stored conversation history has at
most `H + 1` messages (the bound `H` itself is exceeded by one because the
assistant append is not followed by an eviction check); and whenever eviction
occurs (appending to a history of length at least `H`), the retained messages
are exactly the most recent `H` messages in their original order (a suffix of
length `H`). -/
theorem history_bound_invariant (cfg : Config) (ops : List Op)
    (hpos : 0 < cfg.max_history_length) :
    (∀ k l, dictLookup (runOps cfg ops []) k = some l →
      l.length ≤ cfg.max_history_length + 1) ∧
    (∀ (l : List ConversationMessage) (m : ConversationMessage),
      cfg.max_history_length ≤ l.length →
      pySliceLast (l ++ [m]) cfg.max_history_length <:+ l ++ [m] ∧
      (pySliceLast (l ++ [m]) cfg.max_history_length).length =
        cfg.max_history_length) := by
  constructor
  · exact runOps_bound cfg hpos ops []
      (fun k l h => by rw [dictLookup_nil] at h; exact Option.noConfusion h)
  · intro l m hlen
    have hn : ¬ cfg.max_history_length = 0 := by omega
    constructor
    · rw [pySliceLast]
      simp only [hn, if_false]
      exact List.drop_suffix _ _
    · rw [pySliceLast]
      simp only [hn, if_false]
      rw [List.length_drop]
      simp only [List.length_append, List.length_cons, List.length_nil]
      omega

/-- Witness for C2 amended: the 3-message history reached with `H = 2` is
within the `H + 1` bound, and a concrete eviction retains the last two
messages as a suffix. -/
theorem history_bound_invariant_witness :
    ([⟨MessageRole.assistant, "r1"⟩, ⟨MessageRole.user, "u2"⟩,
        ⟨MessageRole.assistant, "r2"⟩] : List ConversationMessage).length ≤ 2 + 1 ∧
    pySliceLast ([⟨MessageRole.user, "m1"⟩, ⟨MessageRole.user, "m2"⟩] ++
        [⟨MessageRole.user, "m3"⟩]) 2 <:+
      [⟨MessageRole.user, "m1"⟩, ⟨MessageRole.user, "m2"⟩] ++
        [⟨MessageRole.user, "m3"⟩] :=
  ⟨(history_bound_invariant ⟨true, true, true, 2⟩
      [.turn "s" ⟨⟨"u1", true⟩, ⟨"r1", true⟩, .ok (some "http://x/a.mp3")⟩,
       .turn "s" ⟨⟨"u2", true⟩, ⟨"r2", true⟩, .ok (some "http://x/a.mp3")⟩]
      (by decide)).1 "s" _ (by decide),
   ((history_bound_invariant ⟨true, true, true, 2⟩ [] (by decide)).2
      [⟨MessageRole.user, "m1"⟩, ⟨MessageRole.user, "m2"⟩]
      ⟨MessageRole.user, "m3"⟩ (by decide)).1⟩

end VoiceAgent
